import Mathlib

/-!
Verification of `demonstration/objectOrientation.cpp`.

A shallow embedding of the classes `Matrix`, `Vector` and `ContactDetailsHandler` of
`src/demonstration/objectOrientation.cpp`, and theorems about their constructors,
destructor, getters and setters.

Conventions of the embedding:

* `int` is `Int`, `unsigned int` is `Nat`; the wrap-around of `unsigned int` arithmetic is
  written `% UINT_RANGE`, and the overflow of an `int` (undefined in C++) is the fault
  `Fault.signedOverflow`.
* an array passed as an argument is a `List`, read by position; a read outside it is the
  fault `Fault.readOutOfBounds i`, `i` being the index that was read. A fault marks the
  point where the C++ program leaves defined behaviour: the program itself does not stop
  there, and what it does afterwards is not modelled.
* `new T[n]` yields a `Buffer`: a fresh address in the `Heap` together with `n`
  uninitialised cells (`none`). A pointer member is an `Option (Buffer _)`, `none` being
  `nullptr`.
* `double` values are only ever copied, so the element type is a parameter `α`.
* every `while`/`for` loop is a function recursing on a fuel argument that tests the loop
  condition of the source at each step; the callers pass enough fuel.
-/

namespace ObjectOrientation

/-! ## Machine integers and faults -/

/-- The number of values of a 32-bit `unsigned int`. -/
def UINT_RANGE : Nat := 4294967296

/-- The largest 32-bit `int`. -/
def INT_MAX : Int := 2147483647

/-- The smallest 32-bit `int`. -/
def INT_MIN : Int := -2147483648

/-- Conversion of an `int` to `unsigned int`, as done by the usual arithmetic conversions
when an `int` is compared with an `unsigned int`. -/
def toUnsigned (i : Int) : Nat := (i % 4294967296).toNat

/-- The ways in which the modelled code can leave defined behaviour or stop early. -/
inductive Fault where
  | badArrayNewLength
  | readOutOfBounds (index : Int)
  | writeOutOfBounds (index : Int)
  | signedOverflow
  | invalidDelete
  | outOfFuel
  deriving DecidableEq, Repr

/-! ## Storage -/

/-- The free store: the addresses of the live buffers, the next unused address, and the
log of the addresses released so far, oldest first. -/
structure Heap where
  live : List Nat
  next : Nat
  released : List Nat
  deriving DecidableEq, Repr

/-- A dynamically allocated array: its address, and its cells (`none` is a cell that was
never written). -/
structure Buffer (τ : Type) where
  addr : Nat
  cells : List (Option τ)
  deriving DecidableEq, Repr

/-- The heap with no live buffer. -/
def Heap.empty : Heap := ⟨[], 0, []⟩

/-- Every live address was handed out by `newArray`, and is live once. -/
def Heap.WellFormed (h : Heap) : Prop := h.live.Nodup ∧ ∀ a ∈ h.live, a < h.next

/-- The expression `new T[n]`. -/
def Heap.newArray {τ : Type} (h : Heap) (n : Nat) : Buffer τ × Heap :=
  (⟨h.next, List.replicate n none⟩, ⟨h.next :: h.live, h.next + 1, h.released⟩)

/-- The statement `delete[] p` for a non-null `p`. -/
def Heap.deleteArray (h : Heap) (addr : Nat) : Except Fault Heap :=
  if addr ∈ h.live then .ok ⟨h.live.erase addr, h.next, h.released ++ [addr]⟩
  else .error .invalidDelete

/-- The expression `arg[i]` on an array argument. -/
def readArg {τ : Type} (arg : List τ) (i : Int) : Option τ :=
  if 0 ≤ i then arg[i.toNat]? else none

/-- The assignment `cells[i] = v` on the cells of an allocated array. -/
def writeCell {τ : Type} (cells : List (Option τ)) (i : Int) (v : τ) : Option (List (Option τ)) :=
  if 0 ≤ i ∧ i.toNat < cells.length then some (cells.set i.toNat (some v)) else none

/-! ## class Matrix -/

/-- The data members of `Matrix`. -/
structure Matrix (α : Type) where
  dimensions : Int
  elements : Option (Buffer α)
  dimensionality : Option (Buffer Nat)
  deriving DecidableEq, Repr

/-- The default constructor `Matrix::Matrix()`. -/
def Matrix.default {α : Type} (h : Heap) : Matrix α × Heap :=
  (⟨0, none, none⟩, h)

/-- The first loop of the parameterised constructor: `dimension` counts up while
`dimension < dimensions`, copying `dimensionalityArg` and accumulating `numElements`. -/
def Matrix.dimensionLoop (dimensions : Int) (dimensionalityArg : List Nat) :
    Nat → Nat → List (Option Nat) → Nat → Except Fault (List (Option Nat) × Nat)
  | 0, dimension, dimensionality, numElements =>
    if dimension < toUnsigned dimensions then .error .outOfFuel
    else .ok (dimensionality, numElements)
  | fuel + 1, dimension, dimensionality, numElements =>
    if dimension < toUnsigned dimensions then
      match readArg dimensionalityArg dimension with
      | none => .error (.readOutOfBounds dimension)
      | some d =>
        match writeCell dimensionality dimension d with
        | none => .error (.writeOutOfBounds dimension)
        | some dimensionality1 =>
          Matrix.dimensionLoop dimensions dimensionalityArg fuel
            ((dimension + 1) % UINT_RANGE) dimensionality1 (numElements * d % UINT_RANGE)
    else .ok (dimensionality, numElements)

/-- The second loop of the parameterised constructor: the `int` counter `element` counts
up while `element < numElements` (compared as `unsigned int`), copying `elementsArg`. -/
def Matrix.elementLoop {α : Type} (elementsArg : List α) (numElements : Nat) :
    Nat → Int → List (Option α) → Except Fault (List (Option α))
  | 0, element, elements =>
    if toUnsigned element < numElements then .error .outOfFuel else .ok elements
  | fuel + 1, element, elements =>
    if toUnsigned element < numElements then
      match readArg elementsArg element with
      | none => .error (.readOutOfBounds element)
      | some v =>
        match writeCell elements element v with
        | none => .error (.writeOutOfBounds element)
        | some elements1 =>
          if INT_MAX < element + 1 then .error .signedOverflow
          else Matrix.elementLoop elementsArg numElements fuel (element + 1) elements1
    else .ok elements

/-- The value of the local `numElements` when the first loop of the parameterised
constructor has run over `dimensionalityArg`: the running product, reduced at each step. -/
def Matrix.numElements (dimensionalityArg : List Nat) : Nat :=
  dimensionalityArg.foldl (fun acc d => acc * d % UINT_RANGE) 1

/-- The parameterised constructor
`Matrix::Matrix(int dimensionsArg, double elementsArg[], unsigned int dimensionalityArg[])`. -/
def Matrix.create {α : Type} (h : Heap) (dimensionsArg : Int) (elementsArg : List α)
    (dimensionalityArg : List Nat) : Except Fault (Matrix α × Heap) :=
  let dimensions := dimensionsArg
  if dimensions < 0 then .error .badArrayNewLength
  else
    let (dimBuf, h1) := (h.newArray dimensions.toNat : Buffer Nat × Heap)
    match Matrix.dimensionLoop dimensions dimensionalityArg dimensions.toNat 0 dimBuf.cells 1 with
    | .error e => .error e
    | .ok (dimCells, numElements) =>
      let (elBuf, h2) := (h1.newArray numElements : Buffer α × Heap)
      match Matrix.elementLoop elementsArg numElements numElements 0 elBuf.cells with
      | .error e => .error e
      | .ok elCells =>
        .ok (⟨dimensions, some ⟨elBuf.addr, elCells⟩, some ⟨dimBuf.addr, dimCells⟩⟩, h2)

/-- The destructor `Matrix::~Matrix()`. -/
def Matrix.destroy {α : Type} (m : Matrix α) (h : Heap) : Except Fault Heap :=
  let afterDimensionality : Except Fault Heap :=
    match m.dimensionality with
    | some b => h.deleteArray b.addr
    | none => .ok h
  match afterDimensionality with
  | .error e => .error e
  | .ok h1 =>
    match m.elements with
    | some b => h1.deleteArray b.addr
    | none => .ok h1

/-- The cells of an array of `n` cells whose first `k` have been filled from `arg`, the
state of a copy loop after `k` iterations. -/
def filled {τ : Type} (arg : List τ) (n k : Nat) : List (Option τ) :=
  (arg.take k).map some ++ List.replicate (n - k) none

/-- An array of `2^32` values, as long as the product of the shape `[65536, 65536]`. -/
def valuesOfLength4294967296 : List Int := List.replicate 4294967296 0

/-- An array of `2^31` values, one more than an `int` counter can count. -/
def valuesOfLength2147483648 : List Int := List.replicate 2147483648 0

/-! ## class ContactDetailsHandler -/

/-- The data members of `ContactDetailsHandler`; the two arrays have five entries. -/
structure ContactDetailsHandler where
  surname : String
  otherNames : Fin 5 → String
  phoneNumber : Int
  addressLines : Fin 5 → String
  numAddressLines : Int

/-- A freshly declared `ContactDetailsHandler contact;`: the strings are empty, the two
`int` members hold whatever values they are given here. -/
def ContactDetailsHandler.declared (phoneNumber numAddressLines : Int) :
    ContactDetailsHandler :=
  ⟨"", fun _ => "", phoneNumber, fun _ => "", numAddressLines⟩

/-- The expression `lines[i]` on a member array of five strings. -/
def readLine (lines : Fin 5 → String) (i : Int) : Option String :=
  if h : 0 ≤ i ∧ i < 5 then some (lines ⟨i.toNat, by omega⟩) else none

/-- The assignment `lines[i] = v` on a member array of five strings. -/
def writeLine (lines : Fin 5 → String) (i : Int) (v : String) : Option (Fin 5 → String) :=
  if h : 0 ≤ i ∧ i < 5 then some (Function.update lines ⟨i.toNat, by omega⟩ v) else none

/-- The method `getPhoneNumber`. -/
def ContactDetailsHandler.getPhoneNumber (c : ContactDetailsHandler) : Int :=
  c.phoneNumber

/-- The method `setPhoneNumber`. -/
def ContactDetailsHandler.setPhoneNumber (c : ContactDetailsHandler) (phoneNumberArg : Int) :
    ContactDetailsHandler :=
  { c with phoneNumber := phoneNumberArg }

/-- The `while` loop of `getAddressAsString`, on the locals `addressLine` and
`addressAsString`. -/
def ContactDetailsHandler.getAddressLoop (c : ContactDetailsHandler) :
    Nat → Int → String → Except Fault (Int × String)
  | 0, addressLine, addressAsString =>
    if addressLine < c.numAddressLines - 1 then .error .outOfFuel
    else .ok (addressLine, addressAsString)
  | fuel + 1, addressLine, addressAsString =>
    if addressLine < c.numAddressLines - 1 then
      match readLine c.addressLines addressLine with
      | none => .error (.readOutOfBounds addressLine)
      | some line =>
        ContactDetailsHandler.getAddressLoop c fuel (addressLine + 1)
          (addressAsString ++ (line ++ ", "))
    else .ok (addressLine, addressAsString)

/-- The private method `getAddressAsString`. The loop reads `addressLines[addressLine]`
at each iteration, so it stops (by exit or by fault) within six iterations. -/
def ContactDetailsHandler.getAddressAsString (c : ContactDetailsHandler) :
    Except Fault String :=
  if c.numAddressLines - 1 < INT_MIN then .error .signedOverflow
  else
    match ContactDetailsHandler.getAddressLoop c 6 0 "" with
    | .error e => .error e
    | .ok (addressLine, addressAsString) =>
      match readLine c.addressLines addressLine with
      | none => .error (.readOutOfBounds addressLine)
      | some line => .ok (addressAsString ++ line)

/-- The method `getAddress`. -/
def ContactDetailsHandler.getAddress (c : ContactDetailsHandler) : Except Fault String :=
  c.getAddressAsString

/-- The `for` loop of `setAddress`, on the local `addressLine` and the object. -/
def ContactDetailsHandler.setAddressLoop (addressLinesArg : List String) :
    Nat → Int → ContactDetailsHandler → Except Fault ContactDetailsHandler
  | 0, addressLine, c =>
    if addressLine < c.numAddressLines then .error .outOfFuel else .ok c
  | fuel + 1, addressLine, c =>
    if addressLine < c.numAddressLines then
      match readArg addressLinesArg addressLine with
      | none => .error (.readOutOfBounds addressLine)
      | some line =>
        match writeLine c.addressLines addressLine line with
        | none => .error (.writeOutOfBounds addressLine)
        | some addressLines1 =>
          ContactDetailsHandler.setAddressLoop addressLinesArg fuel (addressLine + 1)
            { c with addressLines := addressLines1 }
    else .ok c

/-- The method `setAddress`. The loop writes `addressLines[addressLine]` at each
iteration, so it stops (by exit or by fault) within six iterations. -/
def ContactDetailsHandler.setAddress (c : ContactDetailsHandler)
    (addressLinesArg : List String) (numAddressLinesArg : Int) :
    Except Fault ContactDetailsHandler :=
  ContactDetailsHandler.setAddressLoop addressLinesArg 6 0
    { c with numAddressLines := numAddressLinesArg }

/-- What `main` has printed and left behind when it returns. -/
structure MainResult where
  output : List String
  contact : ContactDetailsHandler

/-- The statements of `main` on `contact` and `contactPointer`, from the declaration of
`contact` to the call `setPhoneNumber(007)`; the result holds the lines printed so far
and the object. The arguments are the values of the two uninitialised `int` members of
`contact`. -/
def mainBeforeSecondSetAddress (phoneNumber0 numAddressLines0 : Int) :
    Except Fault (List String × ContactDetailsHandler) :=
  let contact := ContactDetailsHandler.declared phoneNumber0 numAddressLines0
  let contact := { contact with surname := "GHOSTBUSTERS" }
  let out1 := "Who you gonna call? " ++ contact.surname ++ "!"
  let contact := contact.setPhoneNumber 5552368
  let out2 := "Call now on " ++ toString contact.getPhoneNumber ++ ". We're ready to believe you!"
  let addressLines := ["14 N. Moore Street", "New York", "New York", "10013"]
  match contact.setAddress addressLines 4 with
  | .error e => .error e
  | .ok contact =>
    match contact.getAddress with
    | .error e => .error e
    | .ok out3 =>
      let contact := { contact with surname := "Bond" }
      let contact := { contact with otherNames := Function.update contact.otherNames 0 "James" }
      let contact := contact.setPhoneNumber 7
      .ok ([out1, out2, out3], contact)

/-- The statements of `main` on `contact` and `contactPointer`, from the declaration of
`contact` to the last output; the result holds the lines printed, in order. -/
def main (phoneNumber0 numAddressLines0 : Int) : Except Fault MainResult :=
  match mainBeforeSecondSetAddress phoneNumber0 numAddressLines0 with
  | .error e => .error e
  | .ok (out, contact) =>
    let addressLines := ["Universal Exports", "London", "United Kingdom", "10013"]
    match contact.setAddress addressLines 3 with
    | .error e => .error e
    | .ok contact =>
      match contact.getAddress with
      | .error e => .error e
      | .ok address =>
        .ok ⟨out ++
          ["Name: " ++ contact.surname ++ ", " ++ contact.otherNames 0 ++ " " ++ contact.surname,
            "Address: " ++ address,
            "Number: 00" ++ toString contact.getPhoneNumber], contact⟩

/-! ## class Vector -/

/-- The data members of `Vector`. -/
structure Vector (α : Type) where
  components : Option (Buffer α)
  numComponents : Nat
  deriving DecidableEq, Repr

/-- The loop of the `Vector` constructor: the `unsigned int` counter `component` counts up
while `component < numComponents`, copying `componentsArg`. -/
def Vector.componentLoop {α : Type} (componentsArg : List α) (numComponents : Nat) :
    Nat → Nat → List (Option α) → Except Fault (List (Option α))
  | 0, component, components =>
    if component < numComponents then .error .outOfFuel else .ok components
  | fuel + 1, component, components =>
    if component < numComponents then
      match readArg componentsArg component with
      | none => .error (.readOutOfBounds component)
      | some v =>
        match writeCell components component v with
        | none => .error (.writeOutOfBounds component)
        | some components1 =>
          Vector.componentLoop componentsArg numComponents fuel
            ((component + 1) % UINT_RANGE) components1
    else .ok components

/-- The constructor `Vector::Vector(double componentsArg[], unsigned int numComponentsArg)`. -/
def Vector.create {α : Type} (h : Heap) (componentsArg : List α) (numComponentsArg : Nat) :
    Except Fault (Vector α × Heap) :=
  let numComponents := numComponentsArg
  let (buf, h1) := (h.newArray numComponents : Buffer α × Heap)
  match Vector.componentLoop componentsArg numComponents numComponents 0 buf.cells with
  | .error e => .error e
  | .ok cells => .ok (⟨some ⟨buf.addr, cells⟩, numComponents⟩, h1)

/-! ## Lemmas on machine integers and cells -/

theorem toUnsigned_of_nonneg (i : Int) (h0 : 0 ≤ i) (h1 : i ≤ INT_MAX) :
    toUnsigned i = i.toNat := by
  unfold toUnsigned
  unfold INT_MAX at h1
  omega

theorem toUnsigned_natCast (k : Nat) (hk : k < UINT_RANGE) : toUnsigned (k : Int) = k := by
  unfold toUnsigned
  unfold UINT_RANGE at hk
  omega

theorem readArg_natCast {τ : Type} (arg : List τ) (k : Nat) : readArg arg (k : Int) = arg[k]? := by
  simp [readArg]

theorem writeCell_natCast {τ : Type} (cells : List (Option τ)) (k : Nat) (v : τ)
    (hk : k < cells.length) : writeCell cells (k : Int) v = some (cells.set k (some v)) := by
  simp [writeCell, hk]

theorem filled_zero {τ : Type} (arg : List τ) (n : Nat) :
    filled arg n 0 = List.replicate n none := by
  simp [filled]

theorem filled_full {τ : Type} (arg : List τ) (n : Nat) :
    filled arg n n = (arg.take n).map some := by
  simp [filled]

theorem filled_length {τ : Type} (arg : List τ) (n k : Nat) (hk : k ≤ n)
    (hl : k ≤ arg.length) : (filled arg n k).length = n := by
  simp [filled, List.length_take]
  omega

theorem filled_set {τ : Type} (arg : List τ) (n k : Nat) (hk : k < n) (hl : k < arg.length) :
    (filled arg n k).set k (some arg[k]) = filled arg n (k + 1) := by
  unfold filled
  have hlen : ((arg.take k).map some).length = k := by
    simp [List.length_take]; omega
  rw [List.set_append, hlen]
  simp only [Nat.lt_irrefl, if_false, Nat.sub_self]
  obtain ⟨j, hj⟩ : ∃ j, n - k = j + 1 := ⟨n - k - 1, by omega⟩
  have hj2 : n - (k + 1) = j := by omega
  rw [hj, hj2, List.replicate_succ, List.set_cons_zero, List.take_succ,
    List.getElem?_eq_getElem hl]
  simp only [Option.toList, List.map_append, List.map_cons, List.map_nil, List.append_assoc,
    List.singleton_append]

/-- The running product of `Matrix.numElements` is the product reduced modulo `2^32`. -/
theorem numElements_foldl (l : List Nat) (acc : Nat) :
    l.foldl (fun a d => a * d % UINT_RANGE) (acc % UINT_RANGE) = acc * l.prod % UINT_RANGE := by
  induction l generalizing acc with
  | nil => simp
  | cons d l ih =>
    rw [List.foldl_cons, ih, List.prod_cons, Nat.mul_assoc, Nat.mod_mul_mod]

theorem numElements_eq_prod_mod (l : List Nat) :
    Matrix.numElements l = l.prod % UINT_RANGE := by
  have h := numElements_foldl l 1
  simpa [Matrix.numElements, UINT_RANGE] using h

theorem numElements_lt (l : List Nat) : Matrix.numElements l < UINT_RANGE := by
  rw [numElements_eq_prod_mod]
  exact Nat.mod_lt _ (by decide)

theorem numElements_take_succ (arg : List Nat) (k : Nat) (hk : k < arg.length) :
    Matrix.numElements (arg.take (k + 1))
      = Matrix.numElements (arg.take k) * arg[k] % UINT_RANGE := by
  unfold Matrix.numElements
  rw [List.take_succ, List.getElem?_eq_getElem hk]
  simp only [Option.toList, List.foldl_append, List.foldl_cons, List.foldl_nil]

/-! ## The two loops of the parameterised constructor -/

/-- The first loop, started or resumed at `dimension = k` with the first `k` cells filled:
it faults exactly when `dimensionalityArg` has fewer than `dimensions` entries, and
otherwise fills every cell and leaves the reduced product in `numElements`. -/
theorem dimensionLoop_spec (dimensions : Int) (arg : List Nat) (h0 : 0 ≤ dimensions)
    (h1 : dimensions ≤ INT_MAX) :
    ∀ (fuel k : Nat), k ≤ dimensions.toNat → k ≤ arg.length → dimensions.toNat - k ≤ fuel →
      Matrix.dimensionLoop dimensions arg fuel k (filled arg dimensions.toNat k)
          (Matrix.numElements (arg.take k))
        = if arg.length < dimensions.toNat then .error (.readOutOfBounds arg.length)
          else .ok ((arg.take dimensions.toNat).map some,
            Matrix.numElements (arg.take dimensions.toNat)) := by
  have hu : toUnsigned dimensions = dimensions.toNat := toUnsigned_of_nonneg dimensions h0 h1
  have hr : dimensions.toNat < 2147483648 := by
    unfold INT_MAX at h1
    omega
  have hexit : ∀ k : Nat, k ≤ dimensions.toNat → k ≤ arg.length → ¬ k < dimensions.toNat →
      (Except.ok (filled arg dimensions.toNat k, Matrix.numElements (arg.take k))
          : Except Fault (List (Option Nat) × Nat))
        = if arg.length < dimensions.toNat then .error (.readOutOfBounds arg.length)
          else .ok ((arg.take dimensions.toNat).map some,
            Matrix.numElements (arg.take dimensions.toNat)) := by
    intro k hk hl hnot
    have hkr : k = dimensions.toNat := by omega
    subst hkr
    rw [if_neg (by omega), filled_full]
  intro fuel
  induction fuel with
  | zero =>
    intro k hk hl hf
    rw [Matrix.dimensionLoop, hu, if_neg (by omega)]
    exact hexit k hk hl (by omega)
  | succ fuel ih =>
    intro k hk hl hf
    rw [Matrix.dimensionLoop, hu]
    by_cases hlt : k < dimensions.toNat
    · rw [if_pos hlt, readArg_natCast]
      by_cases hin : k < arg.length
      · rw [List.getElem?_eq_getElem hin]
        simp only []
        rw [writeCell_natCast _ _ _ (by rw [filled_length arg _ k hk hl]; exact hlt)]
        simp only []
        have hmod : (k + 1) % UINT_RANGE = k + 1 := by
          unfold UINT_RANGE
          omega
        rw [hmod, filled_set arg _ k hlt hin, ← numElements_take_succ arg k hin]
        exact ih (k + 1) (by omega) (by omega) (by omega)
      · rw [List.getElem?_eq_none (by omega)]
        simp only []
        have hkl : k = arg.length := by omega
        rw [if_pos (by omega), hkl]
    · rw [if_neg hlt]
      exact hexit k hk hl hlt

/-- The second loop, started or resumed at `element = k` with the first `k` cells filled:
it reads past the end of `elementsArg` when that array is shorter than `numElements` and
than `2^31`, it overflows its `int` counter when `numElements` exceeds `INT_MAX`, and
otherwise it fills every cell. -/
theorem elementLoop_spec {α : Type} (arg : List α) (n : Nat) (hn : n < UINT_RANGE) :
    ∀ (fuel k : Nat), k ≤ n → k ≤ arg.length → (k : Int) ≤ INT_MAX → n - k ≤ fuel →
      Matrix.elementLoop arg n fuel (k : Int) (filled arg n k)
        = if arg.length < n ∧ (arg.length : Int) ≤ INT_MAX then .error (.readOutOfBounds arg.length)
          else if INT_MAX < (n : Int) then .error .signedOverflow
          else .ok ((arg.take n).map some) := by
  have hexit : ∀ k : Nat, k ≤ n → k ≤ arg.length → (k : Int) ≤ INT_MAX → ¬ k < n →
      (Except.ok (filled arg n k) : Except Fault (List (Option α)))
        = if arg.length < n ∧ (arg.length : Int) ≤ INT_MAX then .error (.readOutOfBounds arg.length)
          else if INT_MAX < (n : Int) then .error .signedOverflow
          else .ok ((arg.take n).map some) := by
    intro k hk hl hi hnot
    have hkn : k = n := by omega
    subst hkn
    rw [if_neg (by omega), if_neg (by omega), filled_full]
  have hu : ∀ k : Nat, (k : Int) ≤ INT_MAX → toUnsigned (k : Int) = k := by
    intro k hi
    apply toUnsigned_natCast
    unfold INT_MAX at hi
    unfold UINT_RANGE
    omega
  intro fuel
  induction fuel with
  | zero =>
    intro k hk hl hi hf
    rw [Matrix.elementLoop, hu k hi, if_neg (by omega)]
    exact hexit k hk hl hi (by omega)
  | succ fuel ih =>
    intro k hk hl hi hf
    rw [Matrix.elementLoop, hu k hi]
    by_cases hlt : k < n
    · rw [if_pos hlt, readArg_natCast]
      by_cases hin : k < arg.length
      · rw [List.getElem?_eq_getElem hin]
        simp only []
        rw [writeCell_natCast _ _ _ (by rw [filled_length arg _ k hk hl]; exact hlt)]
        simp only []
        rw [filled_set arg _ k hlt hin]
        by_cases hov : INT_MAX < (k : Int) + 1
        · rw [if_pos hov, if_neg (by omega), if_pos (by omega)]
        · rw [if_neg hov]
          have hcast : (k : Int) + 1 = ((k + 1 : Nat) : Int) := by push_cast; rfl
          rw [hcast]
          exact ih (k + 1) (by omega) (by omega) (by omega) (by omega)
      · rw [List.getElem?_eq_none (by omega)]
        simp only []
        have hkl : k = arg.length := by omega
        rw [if_pos ⟨by omega, by omega⟩, hkl]
    · rw [if_neg hlt]
      exact hexit k hk hl hi hlt

/-- What the parameterised constructor does on every input whose rank fits an `int`. -/
theorem create_spec {α : Type} (h : Heap) (dims : Int) (vals : List α) (shape : List Nat)
    (h1 : dims ≤ INT_MAX) :
    Matrix.create h dims vals shape =
      if dims < 0 then .error .badArrayNewLength
      else if shape.length < dims.toNat then .error (.readOutOfBounds shape.length)
      else if vals.length < Matrix.numElements (shape.take dims.toNat)
          ∧ (vals.length : Int) ≤ INT_MAX then .error (.readOutOfBounds vals.length)
      else if INT_MAX < (Matrix.numElements (shape.take dims.toNat) : Int) then
        .error .signedOverflow
      else .ok (⟨dims,
          some ⟨h.next + 1, (vals.take (Matrix.numElements (shape.take dims.toNat))).map some⟩,
          some ⟨h.next, (shape.take dims.toNat).map some⟩⟩,
        ⟨(h.next + 1) :: h.next :: h.live, h.next + 2, h.released⟩) := by
  unfold Matrix.create
  by_cases hneg : dims < 0
  · simp only [if_pos hneg]
  · simp only [if_neg hneg, Heap.newArray]
    have hd := dimensionLoop_spec dims shape (by omega) h1 dims.toNat 0 (Nat.zero_le _)
      (Nat.zero_le _) (by omega)
    rw [filled_zero] at hd
    have hone : Matrix.numElements (List.take 0 shape) = 1 := rfl
    rw [hone] at hd
    rw [hd]
    by_cases hshort : shape.length < dims.toNat
    · simp only [if_pos hshort]
    · simp only [if_neg hshort]
      have he := elementLoop_spec vals (Matrix.numElements (shape.take dims.toNat))
        (numElements_lt _) (Matrix.numElements (shape.take dims.toNat)) 0 (Nat.zero_le _)
        (Nat.zero_le _) (by unfold INT_MAX; decide) (by omega)
      rw [filled_zero] at he
      have hz : ((0 : Nat) : Int) = 0 := rfl
      rw [hz] at he
      rw [he]
      by_cases hread : vals.length < Matrix.numElements (shape.take dims.toNat)
          ∧ (vals.length : Int) ≤ INT_MAX
      · simp only [if_pos hread]
      · simp only [if_neg hread]
        by_cases hov : INT_MAX < (Matrix.numElements (shape.take dims.toNat) : Int)
        · simp only [if_pos hov]
        · simp only [if_neg hov]

/-- The parameterised constructor completes when the rank is the length of the shape,
the product of the shape fits an `int` and the values array has at least that many
entries; it stores the whole shape and the first `product` values. -/
theorem create_ok {α : Type} (h : Heap) (shape : List Nat) (values : List α)
    (hrank : (shape.length : Int) ≤ INT_MAX) (hprod : (shape.prod : Int) ≤ INT_MAX)
    (hlen : shape.prod ≤ values.length) :
    Matrix.numElements shape = shape.prod ∧
    Matrix.create h (shape.length : Int) values shape =
      .ok (⟨(shape.length : Int), some ⟨h.next + 1, (values.take shape.prod).map some⟩,
          some ⟨h.next, shape.map some⟩⟩,
        ⟨(h.next + 1) :: h.next :: h.live, h.next + 2, h.released⟩) := by
  have hnum : Matrix.numElements shape = shape.prod := by
    rw [numElements_eq_prod_mod]
    apply Nat.mod_eq_of_lt
    unfold INT_MAX at hprod
    unfold UINT_RANGE
    omega
  refine ⟨hnum, ?_⟩
  rw [create_spec h _ values shape hrank]
  have htake : List.take (shape.length : Int).toNat shape = shape := by
    rw [Int.toNat_ofNat, List.take_length]
  rw [htake, hnum, if_neg (by omega), if_neg (by rw [Int.toNat_ofNat]; omega),
    if_neg (by omega), if_neg (by omega)]

/-! ## Claims on `Matrix` -/

/-- C1, as amended: when the rank is the length of the shape, the product of the
dimension sizes fits an `int` and `values` has exactly that many entries, the
parameterised constructor completes, its local `numElements` equals the length of
`values`, and the element buffer it allocates has that many cells, every one written. -/
theorem matrix_create_element_count {α : Type} (h : Heap) (shape : List Nat)
    (values : List α) (hrank : (shape.length : Int) ≤ INT_MAX)
    (hprod : (shape.prod : Int) ≤ INT_MAX) (hlen : values.length = shape.prod) :
    Matrix.numElements shape = values.length ∧
    ∃ m h1 e, Matrix.create h (shape.length : Int) values shape = .ok (m, h1) ∧
      m.elements = some e ∧ e.cells.length = values.length ∧
      ∀ c ∈ e.cells, c.isSome = true := by
  obtain ⟨hnum, hok⟩ := create_ok h shape values hrank hprod (by omega)
  refine ⟨by omega, _, _, _, hok, rfl, ?_, ?_⟩
  · simp [List.length_take]
    omega
  · intro c hc
    simp only [List.mem_map] at hc
    obtain ⟨v, _, rfl⟩ := hc
    rfl

/-- The claim C1 at shape `[2, 2]` and values `[1, 2, 3, 4]`: the element count is 4. -/
theorem matrix_create_element_count_witness :
    ((([2, 2] : List Nat).length : Int) ≤ INT_MAX ∧ ((([2, 2] : List Nat).prod : Nat) : Int) ≤ INT_MAX ∧
      [(1 : Int), 2, 3, 4].length = ([2, 2] : List Nat).prod) ∧
    Matrix.numElements [2, 2] = [(1 : Int), 2, 3, 4].length ∧
    ∃ m h1 e, Matrix.create Heap.empty (([2, 2] : List Nat).length : Int) [(1 : Int), 2, 3, 4]
        [2, 2] = .ok (m, h1) ∧
      m.elements = some e ∧ e.cells.length = [(1 : Int), 2, 3, 4].length ∧
      ∀ c ∈ e.cells, c.isSome = true :=
  ⟨⟨by decide, by decide, by decide⟩,
    matrix_create_element_count Heap.empty [2, 2] [(1 : Int), 2, 3, 4] (by decide) (by decide)
      (by decide)⟩

/-- C1 fails as stated: for the shape `[65536, 65536]`, whose product is `2^32`, and an
array of `2^32` values, `numElements` wraps to 0 and the constructor allocates and stores
no element, although the array has `2^32` entries. -/
theorem matrix_create_element_count_counterexample :
    valuesOfLength4294967296.length = ([65536, 65536] : List Nat).prod ∧
    valuesOfLength4294967296.length = 4294967296 ∧
    Matrix.numElements [65536, 65536] = 0 ∧
    Matrix.create Heap.empty 2 valuesOfLength4294967296 [65536, 65536] =
      .ok (⟨2, some ⟨1, []⟩, some ⟨0, [some 65536, some 65536]⟩⟩, ⟨[1, 0], 2, []⟩) :=
  ⟨List.length_replicate _ _, List.length_replicate _ _, rfl,
    (fun vs : List Int =>
      (rfl : Matrix.create Heap.empty 2 vs [65536, 65536] =
        .ok (⟨2, some ⟨1, []⟩, some ⟨0, [some 65536, some 65536]⟩⟩, ⟨[1, 0], 2, []⟩)))
      valuesOfLength4294967296⟩

/-- C2, as amended: when the rank is the length of the shape, the product of the dimension
sizes fits an `int` and `values` has exactly that many entries, the parameterised
constructor completes and its three data members hold its three arguments: `dimensions` is
the rank, `dimensionality` holds the shape and `elements` holds the values, entry for
entry in the same order. -/
theorem matrix_create_members {α : Type} (h : Heap) (shape : List Nat) (values : List α)
    (hrank : (shape.length : Int) ≤ INT_MAX) (hprod : (shape.prod : Int) ≤ INT_MAX)
    (hlen : values.length = shape.prod) :
    ∃ m h1 d e, Matrix.create h (shape.length : Int) values shape = .ok (m, h1) ∧
      m.dimensions = (shape.length : Int) ∧
      m.dimensionality = some d ∧ d.cells = shape.map some ∧
      m.elements = some e ∧ e.cells = values.map some := by
  obtain ⟨_, hok⟩ := create_ok h shape values hrank hprod (by omega)
  refine ⟨_, _, _, _, hok, rfl, rfl, rfl, rfl, ?_⟩
  simp only []
  rw [← hlen, List.take_length]

/-- The claim C2 at shape `[2, 2]` and values `[1, 2, 3, 4]`. -/
theorem matrix_create_members_witness :
    ((([2, 2] : List Nat).length : Int) ≤ INT_MAX ∧ ((([2, 2] : List Nat).prod : Nat) : Int) ≤ INT_MAX ∧
      [(1 : Int), 2, 3, 4].length = ([2, 2] : List Nat).prod) ∧
    ∃ m h1 d e, Matrix.create Heap.empty (([2, 2] : List Nat).length : Int)
        [(1 : Int), 2, 3, 4] [2, 2] = .ok (m, h1) ∧
      m.dimensions = (([2, 2] : List Nat).length : Int) ∧
      m.dimensionality = some d ∧ d.cells = ([2, 2] : List Nat).map some ∧
      m.elements = some e ∧ e.cells = [(1 : Int), 2, 3, 4].map some :=
  ⟨⟨by decide, by decide, by decide⟩,
    matrix_create_members Heap.empty [2, 2] [(1 : Int), 2, 3, 4] (by decide) (by decide)
      (by decide)⟩

/-- C2 fails as stated: for the shape `[65536, 65536]` and an array of `2^32` values the
constructor completes with an empty element buffer, which is not the array of values. -/
theorem matrix_create_members_counterexample :
    valuesOfLength4294967296.length = ([65536, 65536] : List Nat).prod ∧
    (∃ m h1, Matrix.create Heap.empty 2 valuesOfLength4294967296 [65536, 65536] = .ok (m, h1) ∧
      m.elements = some ⟨1, []⟩) ∧
    ([] : List (Option Int)) ≠ valuesOfLength4294967296.map some := by
  refine ⟨List.length_replicate _ _, ⟨_, _, (fun vs : List Int =>
      (rfl : Matrix.create Heap.empty 2 vs [65536, 65536] =
        .ok (⟨2, some ⟨1, []⟩, some ⟨0, [some 65536, some 65536]⟩⟩, ⟨[1, 0], 2, []⟩)))
      valuesOfLength4294967296, rfl⟩, ?_⟩
  intro hnil
  have hl := congrArg List.length hnil
  rw [List.length_map, List.length_nil] at hl
  have hbig : valuesOfLength4294967296.length = 4294967296 := List.length_replicate _ _
  omega

/-- C3, as amended: the default constructor yields rank 0 with null shape and element
storage; the parameterised constructor, whenever it completes on a rank that fits an
`int`, yields a stored shape of `rank` entries (the first `rank` entries of its argument)
and a number of stored elements equal to the product of the stored shape reduced modulo
`2^32`, so that for rank 0 the shape is empty and the element storage has one cell. -/
theorem matrix_constructors_invariant {α : Type} (h : Heap) :
    ((Matrix.default h : Matrix α × Heap).1.dimensions = 0 ∧
      (Matrix.default h : Matrix α × Heap).1.dimensionality = none ∧
      (Matrix.default h : Matrix α × Heap).1.elements = none) ∧
    ∀ (rank : Int) (values : List α) (shape : List Nat) (m : Matrix α) (h1 : Heap),
      rank ≤ INT_MAX → Matrix.create h rank values shape = .ok (m, h1) →
      ∃ d e, m.dimensions = rank ∧ m.dimensionality = some d ∧ m.elements = some e ∧
        d.cells = (shape.take rank.toNat).map some ∧ d.cells.length = rank.toNat ∧
        e.cells.length = (shape.take rank.toNat).prod % UINT_RANGE ∧
        (rank = 0 → d.cells = [] ∧ e.cells.length = 1) := by
  refine ⟨⟨rfl, rfl, rfl⟩, ?_⟩
  intro rank values shape m h1 hrank hok
  rw [create_spec h rank values shape hrank] at hok
  split_ifs at hok with hneg hshort hread hov
  simp only [Except.ok.injEq, Prod.mk.injEq] at hok
  obtain ⟨hm, _⟩ := hok
  subst hm
  have hdl : ((shape.take rank.toNat).map some).length = rank.toNat := by
    rw [List.length_map, List.length_take]
    omega
  have hel : ((values.take (Matrix.numElements (shape.take rank.toNat))).map some).length
      = (shape.take rank.toNat).prod % UINT_RANGE := by
    rw [List.length_map, List.length_take, ← numElements_eq_prod_mod]
    omega
  refine ⟨_, _, rfl, rfl, rfl, rfl, hdl, hel, ?_⟩
  intro hzero
  subst hzero
  refine ⟨rfl, ?_⟩
  simp only [] at hel ⊢
  rw [hel]
  rfl

/-- The claim C3 at rank 0, on the heap with no live buffer. -/
theorem matrix_constructors_invariant_witness :
    ((0 : Int) ≤ INT_MAX ∧
      Matrix.create Heap.empty 0 [(7 : Int)] [] =
        .ok (⟨0, some ⟨1, [some 7]⟩, some ⟨0, []⟩⟩, ⟨[1, 0], 2, []⟩)) ∧
    ∃ d e, (⟨0, some ⟨1, [some 7]⟩, some ⟨0, []⟩⟩ : Matrix Int).dimensions = 0 ∧
      (⟨0, some ⟨1, [some 7]⟩, some ⟨0, []⟩⟩ : Matrix Int).dimensionality = some d ∧
      (⟨0, some ⟨1, [some 7]⟩, some ⟨0, []⟩⟩ : Matrix Int).elements = some e ∧
      d.cells = (([] : List Nat).take (0 : Int).toNat).map some ∧
      d.cells.length = (0 : Int).toNat ∧
      e.cells.length = (([] : List Nat).take (0 : Int).toNat).prod % UINT_RANGE ∧
      ((0 : Int) = 0 → d.cells = [] ∧ e.cells.length = 1) :=
  ⟨⟨by decide, rfl⟩,
    (matrix_constructors_invariant Heap.empty).2 0 [(7 : Int)] [] _ _ (by decide) rfl⟩

/-- C3 fails as stated, twice. At rank 0 with values `[7]` the parameterised constructor
completes with one stored element, so the element storage of a rank 0 matrix is not
empty. At shape `[65536, 65536]` it completes with no stored element, while the product of
the stored shape is `2^32`. -/
theorem matrix_constructors_invariant_counterexample :
    (Matrix.create Heap.empty 0 [(7 : Int)] [] =
      .ok (⟨0, some ⟨1, [some 7]⟩, some ⟨0, []⟩⟩, ⟨[1, 0], 2, []⟩)) ∧
    (Matrix.create Heap.empty 2 ([] : List Int) [65536, 65536] =
      .ok (⟨2, some ⟨1, []⟩, some ⟨0, [some 65536, some 65536]⟩⟩, ⟨[1, 0], 2, []⟩)) ∧
    ([65536, 65536] : List Nat).prod = 4294967296 :=
  ⟨rfl, rfl, rfl⟩

/-- C4, as amended: when the rank is the length of the shape, the product of the shape
fits an `int` and `values` has more entries than that product, the constructor raises no
error: it completes and yields an instance that stores the shape and the first `product`
values, so fewer elements than were supplied. Nothing is stated for fewer values than
the product. -/
theorem matrix_create_length_mismatch {α : Type} (h : Heap) (shape : List Nat)
    (values : List α) (hrank : (shape.length : Int) ≤ INT_MAX)
    (hprod : (shape.prod : Int) ≤ INT_MAX) (hgt : shape.prod < values.length) :
    values.length ≠ shape.prod ∧
    ∃ m h1 d e, Matrix.create h (shape.length : Int) values shape = .ok (m, h1) ∧
      m.dimensions = (shape.length : Int) ∧
      m.dimensionality = some d ∧ d.cells = shape.map some ∧
      m.elements = some e ∧ e.cells = (values.take shape.prod).map some ∧
      e.cells.length = shape.prod ∧ e.cells.length < values.length := by
  obtain ⟨_, hok⟩ := create_ok h shape values hrank hprod (Nat.le_of_lt hgt)
  have hcells : ((values.take shape.prod).map some).length = shape.prod := by
    rw [List.length_map, List.length_take]
    omega
  refine ⟨by omega, _, _, _, _, hok, rfl, rfl, rfl, rfl, rfl, hcells, ?_⟩
  simp only []
  rw [hcells]
  exact hgt

/-- The claim C4 at shape `[3]` with the five values `[1, 2, 3, 4, 5]`: the instance
holds `[1, 2, 3]`. -/
theorem matrix_create_length_mismatch_witness :
    ((([3] : List Nat).length : Int) ≤ INT_MAX ∧
      ((([3] : List Nat).prod : Nat) : Int) ≤ INT_MAX ∧
      ([3] : List Nat).prod < [(1 : Int), 2, 3, 4, 5].length) ∧
    ([(1 : Int), 2, 3, 4, 5].length ≠ ([3] : List Nat).prod ∧
      ∃ m h1 d e, Matrix.create Heap.empty (([3] : List Nat).length : Int)
          [(1 : Int), 2, 3, 4, 5] [3] = .ok (m, h1) ∧
        m.dimensions = (([3] : List Nat).length : Int) ∧
        m.dimensionality = some d ∧ d.cells = ([3] : List Nat).map some ∧
        m.elements = some e ∧
        e.cells = ([(1 : Int), 2, 3, 4, 5].take ([3] : List Nat).prod).map some ∧
        e.cells.length = ([3] : List Nat).prod ∧
        e.cells.length < [(1 : Int), 2, 3, 4, 5].length) ∧
    Matrix.create Heap.empty 1 [(1 : Int), 2, 3, 4, 5] [3] =
      .ok (⟨1, some ⟨1, [some 1, some 2, some 3]⟩, some ⟨0, [some 3]⟩⟩, ⟨[1, 0], 2, []⟩) :=
  ⟨⟨by decide, by decide, by decide⟩,
    matrix_create_length_mismatch Heap.empty [3] [(1 : Int), 2, 3, 4, 5] (by decide)
      (by decide) (by decide),
    rfl⟩

/-- C4 fails as stated: for shape `[2, 2]` and the five values `[1, 2, 3, 4, 5]` the
lengths differ, yet the constructor completes and yields an instance holding
`[1, 2, 3, 4]`. -/
theorem matrix_create_length_mismatch_counterexample :
    [(1 : Int), 2, 3, 4, 5].length ≠ ([2, 2] : List Nat).prod ∧
    Matrix.create Heap.empty 2 [(1 : Int), 2, 3, 4, 5] [2, 2] =
      .ok (⟨2, some ⟨1, [some 1, some 2, some 3, some 4]⟩, some ⟨0, [some 2, some 2]⟩⟩,
        ⟨[1, 0], 2, []⟩) :=
  ⟨by decide, rfl⟩

/-- C5, as amended: the parameterised constructor checks no length. When the rank is the
length of the shape, the product of the shape is below `2^32`, and `values` has fewer
entries than that product and at most `INT_MAX` of them, the element-copy loop reads
`values` at index `len(values)`, which is outside the array, and the construction stops
there. -/
theorem matrix_create_reads_out_of_bounds {α : Type} (h : Heap) (shape : List Nat)
    (values : List α) (hrank : (shape.length : Int) ≤ INT_MAX)
    (hprod : shape.prod < UINT_RANGE) (hlen : values.length < shape.prod)
    (hint : (values.length : Int) ≤ INT_MAX) :
    readArg values (values.length : Int) = none ∧
    Matrix.create h (shape.length : Int) values shape
      = .error (.readOutOfBounds values.length) := by
  have hnum : Matrix.numElements shape = shape.prod := by
    rw [numElements_eq_prod_mod]
    exact Nat.mod_eq_of_lt hprod
  have htake : List.take (shape.length : Int).toNat shape = shape := by
    rw [Int.toNat_ofNat, List.take_length]
  constructor
  · rw [readArg_natCast]
    exact List.getElem?_eq_none (Nat.le_refl _)
  · rw [create_spec h _ values shape hrank, htake, hnum, if_neg (by omega),
      if_neg (by rw [Int.toNat_ofNat]; omega), if_pos ⟨hlen, hint⟩]

/-- The claim C5 at shape `[2, 2]` and values `[1, 2, 3]`: index 3 is read. -/
theorem matrix_create_reads_out_of_bounds_witness :
    ((([2, 2] : List Nat).length : Int) ≤ INT_MAX ∧ ([2, 2] : List Nat).prod < UINT_RANGE ∧
      [(1 : Int), 2, 3].length < ([2, 2] : List Nat).prod ∧
      ([(1 : Int), 2, 3].length : Int) ≤ INT_MAX) ∧
    readArg [(1 : Int), 2, 3] ([(1 : Int), 2, 3].length : Int) = none ∧
    Matrix.create Heap.empty (([2, 2] : List Nat).length : Int) [(1 : Int), 2, 3] [2, 2]
      = .error (.readOutOfBounds ([(1 : Int), 2, 3].length : Int)) :=
  ⟨⟨by decide, by decide, by decide, by decide⟩,
    matrix_create_reads_out_of_bounds Heap.empty [2, 2] [(1 : Int), 2, 3] (by decide)
      (by decide) (by decide) (by decide)⟩

/-- C5 fails as stated: for the shape `[4294967295]`, whose product is below `2^32`, and an
array of `2^31` values, fewer than the product, the `int` counter of the copy loop
overflows after the read at index `INT_MAX`; no read at index `2^31` takes place. -/
theorem matrix_create_reads_out_of_bounds_counterexample :
    valuesOfLength2147483648.length < ([4294967295] : List Nat).prod ∧
    ([4294967295] : List Nat).prod < UINT_RANGE ∧
    Matrix.create Heap.empty 1 valuesOfLength2147483648 [4294967295]
      = .error .signedOverflow := by
  have hbig : valuesOfLength2147483648.length = 2147483648 := List.length_replicate _ _
  have hnum : Matrix.numElements (List.take (1 : Int).toNat [4294967295]) = 4294967295 := rfl
  refine ⟨by rw [hbig]; decide, by decide, ?_⟩
  rw [create_spec Heap.empty 1 valuesOfLength2147483648 [4294967295] (by decide), hnum, hbig,
    if_neg (by decide), if_neg (by decide), if_neg (by decide), if_pos (by decide)]

/-- C6: the default constructor is total; it yields `dimensions == 0` with `elements` and
`dimensionality` both null, and it allocates nothing, leaving the heap as it was. -/
theorem matrix_default_is_empty {α : Type} (h : Heap) :
    (Matrix.default h : Matrix α × Heap).1.dimensions = 0 ∧
    (Matrix.default h : Matrix α × Heap).1.elements = none ∧
    (Matrix.default h : Matrix α × Heap).1.dimensionality = none ∧
    (Matrix.default h : Matrix α × Heap).2 = h :=
  ⟨rfl, rfl, rfl, rfl⟩

/-- C7: on a default-constructed matrix the destructor releases nothing and leaves the
heap as it was. On a matrix built by the parameterised constructor (rank within `int`,
on a well-formed heap) the two buffers the constructor allocated, `dimensionality` and
`elements`, are distinct and new; the destructor completes, releases exactly those two,
each once, and afterwards neither is live and the live buffers are those from before
the construction. -/
theorem matrix_destroy_releases {α : Type} (h : Heap) :
    Matrix.destroy (Matrix.default h : Matrix α × Heap).1 (Matrix.default h : Matrix α × Heap).2
      = .ok h ∧
    ∀ (rank : Int) (values : List α) (shape : List Nat) (m : Matrix α) (h1 : Heap),
      h.WellFormed → rank ≤ INT_MAX → Matrix.create h rank values shape = .ok (m, h1) →
      ∃ d e h2, m.dimensionality = some d ∧ m.elements = some e ∧
        d.addr ≠ e.addr ∧ d.addr ∉ h.live ∧ e.addr ∉ h.live ∧
        h1.live = e.addr :: d.addr :: h.live ∧ h1.released = h.released ∧
        Matrix.destroy m h1 = .ok h2 ∧
        h2.released = h1.released ++ [d.addr, e.addr] ∧
        h2.live = h.live ∧ d.addr ∉ h2.live ∧ e.addr ∉ h2.live := by
  refine ⟨rfl, ?_⟩
  intro rank values shape m h1 hwf hrank hok
  rw [create_spec h rank values shape hrank] at hok
  split_ifs at hok with hneg hshort hread hov
  simp only [Except.ok.injEq, Prod.mk.injEq] at hok
  obtain ⟨hm, hh⟩ := hok
  subst hm
  subst hh
  have hfresh0 : h.next ∉ h.live := fun hmem => Nat.lt_irrefl _ (hwf.2 _ hmem)
  have hfresh1 : h.next + 1 ∉ h.live := fun hmem => by
    have := hwf.2 _ hmem
    omega
  refine ⟨_, _, ⟨h.live, h.next + 2, h.released ++ [h.next, h.next + 1]⟩, rfl, rfl, by simp,
    hfresh0, hfresh1, rfl, rfl, ?_, rfl, rfl, hfresh0, hfresh1⟩
  simp [Matrix.destroy, Heap.deleteArray]

/-- The claim C7 for the matrix of shape `[2, 2]` built on the heap with no live buffer. -/
theorem matrix_destroy_releases_witness :
    (Heap.empty.WellFormed ∧ (2 : Int) ≤ INT_MAX ∧
      Matrix.create Heap.empty 2 [(1 : Int), 2, 3, 4] [2, 2] =
        .ok (⟨2, some ⟨1, [some 1, some 2, some 3, some 4]⟩, some ⟨0, [some 2, some 2]⟩⟩,
          ⟨[1, 0], 2, []⟩)) ∧
    ∃ d e h2,
      (⟨2, some ⟨1, [some 1, some 2, some 3, some 4]⟩, some ⟨0, [some 2, some 2]⟩⟩
        : Matrix Int).dimensionality = some d ∧
      (⟨2, some ⟨1, [some 1, some 2, some 3, some 4]⟩, some ⟨0, [some 2, some 2]⟩⟩
        : Matrix Int).elements = some e ∧
      d.addr ≠ e.addr ∧ d.addr ∉ Heap.empty.live ∧ e.addr ∉ Heap.empty.live ∧
      (⟨[1, 0], 2, []⟩ : Heap).live = e.addr :: d.addr :: Heap.empty.live ∧
      (⟨[1, 0], 2, []⟩ : Heap).released = Heap.empty.released ∧
      Matrix.destroy (⟨2, some ⟨1, [some 1, some 2, some 3, some 4]⟩,
        some ⟨0, [some 2, some 2]⟩⟩ : Matrix Int) ⟨[1, 0], 2, []⟩ = .ok h2 ∧
      h2.released = (⟨[1, 0], 2, []⟩ : Heap).released ++ [d.addr, e.addr] ∧
      h2.live = Heap.empty.live ∧ d.addr ∉ h2.live ∧ e.addr ∉ h2.live :=
  ⟨⟨⟨List.nodup_nil, fun a ha => absurd ha (List.not_mem_nil a)⟩, by decide, rfl⟩,
    (matrix_destroy_releases Heap.empty).2 2 [(1 : Int), 2, 3, 4] [2, 2] _ _
      ⟨List.nodup_nil, fun a ha => absurd ha (List.not_mem_nil a)⟩ (by decide) rfl⟩

/-! ## The loop of `setAddress` -/

/-- A write to a member array of five strings at an index below five updates that entry. -/
theorem writeLine_eq_some (lines : Fin 5 → String) (k : Nat) (v : String) (hk : k < 5) :
    writeLine lines (k : Int) v = some (Function.update lines ⟨k, hk⟩ v) := by
  unfold writeLine
  rw [dif_pos ⟨by omega, by omega⟩]
  simp

/-- The loop of `setAddress` completes when the number of lines to copy is at most five
and at most the length of the argument array. -/
theorem setAddressLoop_completes (lines : List String) :
    ∀ (fuel k : Nat) (c : ContactDetailsHandler), c.numAddressLines ≤ 5 →
      c.numAddressLines ≤ (lines.length : Int) → c.numAddressLines - (k : Int) ≤ (fuel : Int) →
      ∃ c1, ContactDetailsHandler.setAddressLoop lines fuel (k : Int) c = .ok c1 := by
  intro fuel
  induction fuel with
  | zero =>
    intro k c _ _ hf
    rw [ContactDetailsHandler.setAddressLoop, if_neg (by omega)]
    exact ⟨c, rfl⟩
  | succ fuel ih =>
    intro k c h5 hlen hf
    rw [ContactDetailsHandler.setAddressLoop]
    by_cases hlt : (k : Int) < c.numAddressLines
    · have hin : k < lines.length := by omega
      have hk5 : k < 5 := by omega
      rw [if_pos hlt, readArg_natCast, List.getElem?_eq_getElem hin]
      simp only []
      rw [writeLine_eq_some _ _ _ hk5]
      simp only []
      have hcast : (k : Int) + 1 = ((k + 1 : Nat) : Int) := by push_cast; rfl
      rw [hcast]
      exact ih (k + 1) _ h5 hlen (by push_cast at hf ⊢; omega)
    · rw [if_neg hlt]
      exact ⟨c, rfl⟩

/-- A run of the loop of `setAddress` that completes leaves `surname`, `otherNames`,
`phoneNumber` and `numAddressLines` as they were, and also every address line whose index
is below the starting index or not below `numAddressLines`. -/
theorem setAddressLoop_frame (lines : List String) :
    ∀ (fuel : Nat) (k : Int) (c c1 : ContactDetailsHandler), 0 ≤ k →
      ContactDetailsHandler.setAddressLoop lines fuel k c = .ok c1 →
      c1.surname = c.surname ∧ c1.otherNames = c.otherNames ∧
      c1.phoneNumber = c.phoneNumber ∧ c1.numAddressLines = c.numAddressLines ∧
      ∀ i : Fin 5, ((i.val : Int) < k ∨ c.numAddressLines ≤ (i.val : Int)) →
        c1.addressLines i = c.addressLines i := by
  intro fuel
  induction fuel with
  | zero =>
    intro k c c1 _ hok
    rw [ContactDetailsHandler.setAddressLoop] at hok
    split_ifs at hok
    simp only [Except.ok.injEq] at hok
    subst hok
    exact ⟨rfl, rfl, rfl, rfl, fun _ _ => rfl⟩
  | succ fuel ih =>
    intro k c c1 hk hok
    rw [ContactDetailsHandler.setAddressLoop] at hok
    split_ifs at hok with hlt
    · cases hread : readArg lines k with
      | none => rw [hread] at hok; simp at hok
      | some line =>
        rw [hread] at hok
        simp only [] at hok
        unfold writeLine at hok
        split_ifs at hok with hbound
        simp only [] at hok
        obtain ⟨hs, ho, hp, hn, hl⟩ := ih (k + 1) _ c1 (by omega) hok
        refine ⟨hs, ho, hp, hn, ?_⟩
        intro i hi
        rw [hl i (by simp only [] at hn ⊢; omega)]
        simp only []
        apply Function.update_noteq
        intro hik
        subst hik
        simp only [] at hi
        omega
    · simp only [Except.ok.injEq] at hok
      subst hok
      exact ⟨rfl, rfl, rfl, rfl, fun _ _ => rfl⟩

/-! ## Claims on `ContactDetailsHandler` -/

/-- C8: from any prior state, for `1 ≤ n ≤ 5` and an array of at least `n` strings,
`setAddress(lines, n)` completes and `getAddress()` then returns the first `n` strings
joined by `", "`, with no separator after the last; the string does not depend on the
prior state, so any other prior state gives the same one. -/
theorem contact_getAddress_after_setAddress (c : ContactDetailsHandler)
    (lines : List String) (n : Int) (h1 : 1 ≤ n) (h5 : n ≤ 5)
    (hlen : n ≤ (lines.length : Int)) :
    (∃ c1, c.setAddress lines n = .ok c1 ∧
      c1.getAddress = .ok (", ".intercalate (lines.take n.toNat))) ∧
    ∀ c0 : ContactDetailsHandler, ∃ c2, c0.setAddress lines n = .ok c2 ∧
      c2.getAddress = .ok (", ".intercalate (lines.take n.toNat)) := by
  have key : ∀ c : ContactDetailsHandler, ∃ c1, c.setAddress lines n = .ok c1 ∧
      c1.getAddress = .ok (", ".intercalate (lines.take n.toNat)) := by
    intro c
    interval_cases n
    · match lines, hlen with
      | a :: rest, _ =>
        simp [ContactDetailsHandler.setAddress, ContactDetailsHandler.setAddressLoop, readArg,
          writeLine, ContactDetailsHandler.getAddress, ContactDetailsHandler.getAddressAsString,
          ContactDetailsHandler.getAddressLoop, readLine, INT_MIN, String.intercalate,
          String.intercalate.go, String.append_assoc]
    · match lines, hlen with
      | a :: b :: rest, _ =>
        simp [ContactDetailsHandler.setAddress, ContactDetailsHandler.setAddressLoop, readArg,
          writeLine, ContactDetailsHandler.getAddress, ContactDetailsHandler.getAddressAsString,
          ContactDetailsHandler.getAddressLoop, readLine, INT_MIN, String.intercalate,
          String.intercalate.go, String.append_assoc]
    · match lines, hlen with
      | a :: b :: d :: rest, _ =>
        simp [ContactDetailsHandler.setAddress, ContactDetailsHandler.setAddressLoop, readArg,
          writeLine, ContactDetailsHandler.getAddress, ContactDetailsHandler.getAddressAsString,
          ContactDetailsHandler.getAddressLoop, readLine, INT_MIN, String.intercalate,
          String.intercalate.go, String.append_assoc]
    · match lines, hlen with
      | a :: b :: d :: e :: rest, _ =>
        simp [ContactDetailsHandler.setAddress, ContactDetailsHandler.setAddressLoop, readArg,
          writeLine, ContactDetailsHandler.getAddress, ContactDetailsHandler.getAddressAsString,
          ContactDetailsHandler.getAddressLoop, readLine, INT_MIN, String.intercalate,
          String.intercalate.go, String.append_assoc]
    · match lines, hlen with
      | a :: b :: d :: e :: f :: rest, _ =>
        simp [ContactDetailsHandler.setAddress, ContactDetailsHandler.setAddressLoop, readArg,
          writeLine, ContactDetailsHandler.getAddress, ContactDetailsHandler.getAddressAsString,
          ContactDetailsHandler.getAddressLoop, readLine, INT_MIN, String.intercalate,
          String.intercalate.go, String.append_assoc]
  exact ⟨key c, key⟩

/-- The claim C8 at the two calls of `main`: the call with four lines, on the freshly
declared contact, and the call with three lines, on any contact. -/
theorem contact_getAddress_after_setAddress_witness :
    ((1 : Int) ≤ 4 ∧ (4 : Int) ≤ 5 ∧
      (4 : Int) ≤ (["14 N. Moore Street", "New York", "New York", "10013"].length : Int)) ∧
    ((∃ c1, (ContactDetailsHandler.declared 0 0).setAddress
          ["14 N. Moore Street", "New York", "New York", "10013"] 4 = .ok c1 ∧
        c1.getAddress = .ok (", ".intercalate
          (["14 N. Moore Street", "New York", "New York", "10013"].take (4 : Int).toNat))) ∧
      ∀ c0 : ContactDetailsHandler, ∃ c2, c0.setAddress
          ["14 N. Moore Street", "New York", "New York", "10013"] 4 = .ok c2 ∧
        c2.getAddress = .ok (", ".intercalate
          (["14 N. Moore Street", "New York", "New York", "10013"].take (4 : Int).toNat))) ∧
    ", ".intercalate (["14 N. Moore Street", "New York", "New York", "10013"].take (4 : Int).toNat)
      = "14 N. Moore Street, New York, New York, 10013" ∧
    ", ".intercalate
        (["Universal Exports", "London", "United Kingdom", "10013"].take (3 : Int).toNat)
      = "Universal Exports, London, United Kingdom" :=
  ⟨⟨by decide, by decide, by decide⟩,
    contact_getAddress_after_setAddress (ContactDetailsHandler.declared 0 0)
      ["14 N. Moore Street", "New York", "New York", "10013"] 4 (by decide) (by decide)
      (by decide),
    by decide, by decide⟩

/-- C9: from any state and for any `int` `x`, `getPhoneNumber()` after `setPhoneNumber(x)`
returns `x`; after two calls the later argument is returned, so `setPhoneNumber(5552368)`
followed by `setPhoneNumber(007)` gives 7. -/
theorem contact_getPhoneNumber_after_setPhoneNumber (c : ContactDetailsHandler) (x : Int) :
    (c.setPhoneNumber x).getPhoneNumber = x ∧
    (∀ y : Int, ((c.setPhoneNumber x).setPhoneNumber y).getPhoneNumber = y) ∧
    ((c.setPhoneNumber 5552368).setPhoneNumber 7).getPhoneNumber = 7 :=
  ⟨rfl, fun _ => rfl, rfl⟩

/-- C10: `setAddress(lines, n)` with `0 ≤ n ≤ 5` completes when `lines` has at least `n`
strings, and whenever it completes it sets `numAddressLines` to `n` and leaves `surname`,
`otherNames`, `phoneNumber` and the address lines of index `n` to 4 unchanged; `setPhoneNumber(x)` changes no member but
`phoneNumber`, so `getAddress()` gives the same result before and after it. -/
theorem contact_setters_frame (c : ContactDetailsHandler) :
    (∀ (lines : List String) (n : Int), 0 ≤ n → n ≤ 5 →
      (n ≤ (lines.length : Int) → ∃ c1, c.setAddress lines n = .ok c1) ∧
      ∀ c1, c.setAddress lines n = .ok c1 →
        c1.numAddressLines = n ∧
        c1.surname = c.surname ∧ c1.otherNames = c.otherNames ∧
        c1.phoneNumber = c.phoneNumber ∧
        ∀ i : Fin 5, n ≤ (i.val : Int) → c1.addressLines i = c.addressLines i) ∧
    ∀ x : Int, (c.setPhoneNumber x).surname = c.surname ∧
      (c.setPhoneNumber x).otherNames = c.otherNames ∧
      (c.setPhoneNumber x).addressLines = c.addressLines ∧
      (c.setPhoneNumber x).numAddressLines = c.numAddressLines ∧
      (c.setPhoneNumber x).getAddress = c.getAddress := by
  refine ⟨?_, fun x => ⟨rfl, rfl, rfl, rfl, rfl⟩⟩
  intro lines n h0 h5
  constructor
  · intro hlen
    exact setAddressLoop_completes lines 6 0 { c with numAddressLines := n } h5 hlen
      (by simp only []; omega)
  · intro c1 hok
    obtain ⟨hs, ho, hp, hn, hl⟩ :=
      setAddressLoop_frame lines 6 0 { c with numAddressLines := n } c1 (le_refl _) hok
    exact ⟨hn, hs, ho, hp, fun i hi => hl i (Or.inr hi)⟩

/-- The claim C10 at the second `setAddress` call of `main`, and the lines `main` prints:
the surname, first other name and phone number set before that call are printed after
it. -/
theorem contact_setters_frame_witness :
    ((0 : Int) ≤ 3 ∧ (3 : Int) ≤ 5 ∧
      (3 : Int) ≤ (["Universal Exports", "London", "United Kingdom", "10013"].length : Int)) ∧
    (∃ out c, mainBeforeSecondSetAddress 0 0 = .ok (out, c) ∧
      ∃ c1, c.setAddress ["Universal Exports", "London", "United Kingdom", "10013"] 3 = .ok c1 ∧
        c1.numAddressLines = 3 ∧ c1.surname = c.surname ∧ c1.otherNames = c.otherNames ∧
        c1.phoneNumber = c.phoneNumber ∧
        ∀ i : Fin 5, (3 : Int) ≤ (i.val : Int) → c1.addressLines i = c.addressLines i) ∧
    (∀ p n : Int, (main p n).map (fun r => r.output) =
      .ok ["Who you gonna call? GHOSTBUSTERS!",
        "Call now on 5552368. We're ready to believe you!",
        "14 N. Moore Street, New York, New York, 10013",
        "Name: Bond, James Bond",
        "Address: Universal Exports, London, United Kingdom",
        "Number: 007"]) := by
  refine ⟨⟨by decide, by decide, by decide⟩, ⟨_, _, rfl, ?_⟩, fun _ _ => rfl⟩
  obtain ⟨hex, hframe⟩ := (contact_setters_frame _).1
    ["Universal Exports", "London", "United Kingdom", "10013"] 3 (by decide) (by decide)
  obtain ⟨c1, hok⟩ := hex (by decide)
  exact ⟨c1, hok, hframe c1 hok⟩

/-! ## class Vector: the constructor -/

/-- The loop of the `Vector` constructor, started or resumed at `component = k` with the
first `k` cells filled: it reads past the end of `componentsArg` exactly when that array
has fewer than `numComponents` entries, and otherwise it fills every cell. -/
theorem componentLoop_spec {α : Type} (arg : List α) (n : Nat) (hn : n < UINT_RANGE) :
    ∀ (fuel k : Nat), k ≤ n → k ≤ arg.length → n - k ≤ fuel →
      Vector.componentLoop arg n fuel k (filled arg n k)
        = if arg.length < n then .error (.readOutOfBounds arg.length)
          else .ok ((arg.take n).map some) := by
  have hexit : ∀ k : Nat, k ≤ n → k ≤ arg.length → ¬ k < n →
      (Except.ok (filled arg n k) : Except Fault (List (Option α)))
        = if arg.length < n then .error (.readOutOfBounds arg.length)
          else .ok ((arg.take n).map some) := by
    intro k hk hl hnot
    have hkn : k = n := by omega
    subst hkn
    rw [if_neg (by omega), filled_full]
  intro fuel
  induction fuel with
  | zero =>
    intro k hk hl hf
    rw [Vector.componentLoop, if_neg (by omega)]
    exact hexit k hk hl (by omega)
  | succ fuel ih =>
    intro k hk hl hf
    rw [Vector.componentLoop]
    by_cases hlt : k < n
    · rw [if_pos hlt, readArg_natCast]
      by_cases hin : k < arg.length
      · rw [List.getElem?_eq_getElem hin]
        simp only []
        rw [writeCell_natCast _ _ _ (by rw [filled_length arg _ k hk hl]; exact hlt)]
        simp only []
        have hmod : (k + 1) % UINT_RANGE = k + 1 := by
          apply Nat.mod_eq_of_lt
          omega
        rw [hmod, filled_set arg _ k hlt hin]
        exact ih (k + 1) (by omega) (by omega) (by omega)
      · rw [List.getElem?_eq_none (by omega)]
        simp only []
        have hkl : k = arg.length := by omega
        rw [if_pos (by omega), hkl]
    · rw [if_neg hlt]
      exact hexit k hk hl hlt

/-- C11: for every array `comps` and every `unsigned int` `n` with `n ≤ len(comps)`, the
constructor `Vector(comps, n)` completes with `numComponents == n` and with `components`
pointing to a newly allocated array of `n` cells that holds `comps[0..n-1]` in order. -/
theorem vector_create_members {α : Type} (h : Heap) (comps : List α) (n : Nat)
    (hn : n < UINT_RANGE) (hlen : n ≤ comps.length) :
    ∃ v h1 b, Vector.create h comps n = .ok (v, h1) ∧
      v.numComponents = n ∧ v.components = some b ∧
      b.cells = (comps.take n).map some ∧ b.cells.length = n ∧
      b.addr = h.next ∧ h1.live = h.next :: h.live := by
  have hloop := componentLoop_spec comps n hn n 0 (Nat.zero_le _) (Nat.zero_le _) (by omega)
  rw [filled_zero, if_neg (by omega)] at hloop
  refine ⟨⟨some ⟨h.next, (comps.take n).map some⟩, n⟩,
    ⟨h.next :: h.live, h.next + 1, h.released⟩, ⟨h.next, (comps.take n).map some⟩,
    ?_, rfl, rfl, rfl, ?_, rfl, rfl⟩
  · unfold Vector.create
    simp only [Heap.newArray]
    rw [hloop]
  · simp only [List.length_map, List.length_take]
    omega

/-- The claim C11 at `comps = [1, 2, 3]` and `n = 2`: the two stored components are
`1, 2`. -/
theorem vector_create_members_witness :
    ((2 : Nat) < UINT_RANGE ∧ 2 ≤ [(1 : Int), 2, 3].length) ∧
    (∃ v h1 b, Vector.create Heap.empty [(1 : Int), 2, 3] 2 = .ok (v, h1) ∧
      v.numComponents = 2 ∧ v.components = some b ∧
      b.cells = ([(1 : Int), 2, 3].take 2).map some ∧ b.cells.length = 2 ∧
      b.addr = Heap.empty.next ∧ h1.live = Heap.empty.next :: Heap.empty.live) ∧
    Vector.create Heap.empty [(1 : Int), 2, 3] 2 =
      .ok (⟨some ⟨0, [some 1, some 2]⟩, 2⟩, ⟨[0], 1, []⟩) :=
  ⟨⟨by decide, by decide⟩,
    vector_create_members Heap.empty [(1 : Int), 2, 3] 2 (by decide) (by decide), rfl⟩

end ObjectOrientation
